import Mathlib

/-!
Verification of the gin-JWT authentication middleware (package myjwt).

The Go source is shallowly embedded below: claim sets become association
lists of dynamically typed values, durations and Unix timestamps become
integers (seconds), the gin context interactions become explicit inputs
and outputs, and the unchecked Go type assertions become an explicit
`panicked` outcome.  Each definition mirrors one function of the source
file and is documented with the function it embeds.
-/

namespace Myjwt

/-- Dynamically typed claim value, modelling the Go `interface{}` values
that JSON decoding puts into a `MapClaims`.  A JSON number decodes to Go
`float64`; the code only ever uses numbers through `int64(x.(float64))`
truncation and `.Unix()` stamps, so a number is modelled by that integer. -/
inductive Val
  | num (x : Int)
  | str (s : String)
  | boolean (b : Bool)
  | null
deriving DecidableEq

/-- A `MapClaims` / claim set: association list from claim name to value.
A Go map has unique keys; theorems that need that fact take a `Nodup`
hypothesis on the key list. -/
abbrev ClaimSet := List (String × Val)

/-- Go map lookup `claims[k]` (first matching entry; `none` when absent). -/
def getClaim : ClaimSet → String → Option Val
  | [], _ => none
  | p :: rest, k => if p.1 = k then some p.2 else getClaim rest k

/-- Go map assignment `claims[k] = v`: replaces the entry for `k`, or
appends a fresh one. -/
def setClaim : ClaimSet → String → Val → ClaimSet
  | [], k, v => [(k, v)]
  | p :: rest, k, v => if p.1 = k then (k, v) :: rest else p :: setClaim rest k v

/-- Go `m[k]` nil test result: a key that is absent, or whose stored value
is JSON null (a nil interface), both compare equal to nil. -/
def goGet (cs : ClaimSet) (k : String) : Option Val :=
  match getClaim cs k with
  | some .null => none
  | r => r

/-- Result of the Go comma-ok assertion `_, ok := v.(float64)` applied to
`claims[k]` (`goGet` result): only a stored number is a float64. -/
def isFloat64 : Option Val → Bool
  | some (.num _) => true
  | _ => false

/-- Collapse a looked-up JSON null to a Go nil interface, as the identity
handler result `claims[mw.IdentityKey]` does. -/
def denil : Option Val → Option Val
  | some .null => none
  | r => r

/-! ### Faithful models of the Go `strings` helpers used by the source -/

/-- Core of Go `strings.Split` for a one-character separator. -/
def splitCharAux (sep : Char) : List Char → List Char → List (List Char)
  | [], acc => [acc.reverse]
  | c :: cs, acc =>
    if c = sep then acc.reverse :: splitCharAux sep cs []
    else splitCharAux sep cs (c :: acc)

/-- Go `strings.Split(s, sep)` for the one-character separators `","` and
`":"` used by the source. -/
def goSplit (s : String) (sep : Char) : List String :=
  (splitCharAux sep s.data []).map String.mk

/-- Go `unicode.IsSpace` restricted to the ASCII space characters that can
occur in configuration strings. -/
def isSpaceChar (c : Char) : Bool :=
  c = ' ' || c = '\t' || c = '\n' || c = '\r'

/-- Go `strings.TrimSpace`. -/
def goTrimSpace (s : String) : String :=
  String.mk (((s.data.dropWhile isSpaceChar).reverse.dropWhile isSpaceChar).reverse)

/-- List-level Go `strings.HasPrefix`. -/
def startsWithL : List Char → List Char → Bool
  | _, [] => true
  | [], _ :: _ => false
  | c :: cs, p :: ps => c = p && startsWithL cs ps

/-- Go `strings.HasPrefix(s, pre)`. -/
def goStartsWith (s pre : String) : Bool :=
  startsWithL s.data pre.data

/-- Split a character list at its first space: Go
`strings.SplitN(s, " ", 2)` yields two parts exactly when this returns
`some (before, after)`. -/
def splitFirstSpace : List Char → Option (List Char × List Char)
  | [] => none
  | c :: cs =>
    if c = ' ' then some ([], cs)
    else
      match splitFirstSpace cs with
      | none => none
      | some p => some (c :: p.1, p.2)

/-! ### Errors -/

/-- Messages of errors produced inside the jwt library during `jwt.Parse`
(the `*jwt.ValidationError` texts and inner errors that can reach the
middleware).  The keyfunc installed by `ParseToken` can contribute
`invalidAlgInner` (its `ErrInvalidSigningAlgorithm`). -/
inductive LibMsg
  | malformedSegments
  | sigUnavailable
  | base64Decode
  | jsonDecode
  | sigInvalid
  | expired
  | usedBeforeIssued
  | notValidYet
  | noKeyfunc
  | invalidAlgInner
deriving DecidableEq

/-- The `Error()` strings of the library errors of `LibMsg`. -/
def libMsgStr : LibMsg → String
  | .malformedSegments => "token contains an invalid number of segments"
  | .sigUnavailable => "signing method (alg) is unavailable."
  | .base64Decode => "illegal base64 data at input byte 0"
  | .jsonDecode => "invalid character in token payload"
  | .sigInvalid => "signature is invalid"
  | .expired => "Token is expired"
  | .usedBeforeIssued => "Token used before issued"
  | .notValidYet => "Token is not valid yet"
  | .noKeyfunc => "no Keyfunc was provided."
  | .invalidAlgInner => "invalid signing algorithm"

/-- Error values of the package: the `errors.New` variables declared at the
top of the source, plus `validation bits msg` for a `*jwt.ValidationError`
carrying the bitmask `Errors` and its message. -/
inductive Err
  | missingSecretKey
  | forbidden
  | missingAuthenticatorFunc
  | missingLoginValues
  | failedAuthentication
  | failedTokenCreation
  | expiredToken
  | emptyAuthHeader
  | missingExpField
  | wrongFormatOfExp
  | invalidAuthHeader
  | emptyQueryToken
  | emptyCookieToken
  | emptyParamToken
  | emptyPostFormToken
  | invalidSigningAlgorithm
  | noPrivKeyFile
  | noPubKeyFile
  | invalidPrivKey
  | invalidPubKey
  | validation (bits : Nat) (msg : LibMsg)
deriving DecidableEq

/-- The `Error()` string of each error, as written in the source's
`errors.New` calls (and the library texts for validation errors). -/
def errString : Err → String
  | .missingSecretKey => "secret key is required"
  | .forbidden => "you don't have permission to access this resource"
  | .missingAuthenticatorFunc => "ginJWTMiddleware.Authenticator func is undefined"
  | .missingLoginValues => "missing Username or Password"
  | .failedAuthentication => "incorrect Username or Password"
  | .failedTokenCreation => "failed to create JWT Token"
  | .expiredToken => "token is expired"
  | .emptyAuthHeader => "auth header is empty"
  | .missingExpField => "missing exp field"
  | .wrongFormatOfExp => "exp must be float64 format"
  | .invalidAuthHeader => "auth header is invalid"
  | .emptyQueryToken => "query token is empty"
  | .emptyCookieToken => "cookie token is empty"
  | .emptyParamToken => "parameter token is empty"
  | .emptyPostFormToken => "form post token is empty"
  | .invalidSigningAlgorithm => "invalid signing algorithm"
  | .noPrivKeyFile => "private key file unreadable"
  | .noPubKeyFile => "public key file unreadable"
  | .invalidPrivKey => "private key invalid"
  | .invalidPubKey => "public key invalid"
  | .validation _ m => libMsgStr m

/-- The jwt library constant `jwt.ValidationErrorExpired` (bit 4 of the
`ValidationError.Errors` bitmask). -/
def jwtValidationErrorExpired : Nat := 16

/-! ### Signing methods and key material -/

/-- The signing methods the middleware documents
(HS256|HS384|HS512|RS256|RS384|RS512). -/
inductive SigMethod
  | HS256 | HS384 | HS512 | RS256 | RS384 | RS512
deriving DecidableEq

/-- The jwt library `jwt.GetSigningMethod` lookup, restricted to the
algorithms the middleware supports; an unknown name yields `none` (a Go
nil method). -/
def getSigningMethod (alg : String) : Option SigMethod :=
  if alg = "HS256" then some .HS256
  else if alg = "HS384" then some .HS384
  else if alg = "HS512" then some .HS512
  else if alg = "RS256" then some .RS256
  else if alg = "RS384" then some .RS384
  else if alg = "RS512" then some .RS512
  else none

/-- Key material handed to the jwt library by a keyfunc: the RSA public
key, the shared secret `mw.Key`, or an opaque value from an external
`KeyFunc` callback. -/
inductive KeyMat
  | rsaPub
  | secret (k : Option String)
  | custom (tag : Nat)
deriving DecidableEq

/-! ### The middleware configuration -/

/-- The fields of `GinJWTMiddleware` the verified behaviour depends on.
Durations (`Timeout`, `MaxRefresh`) are in seconds.  `keyFunc` models the
external `KeyFunc` callback (applied to the token's method);
`identityHandler` models `IdentityHandler` applied to a context whose
JWT payload is the given claim set; `authorizator` models `Authorizator`
applied to the resolved identity; `authenticator` models the configured
`Authenticator` callback as its result on the current request (`none`
when the callback itself is nil). -/
structure MW where
  signingAlgorithm : String
  key : Option String
  keyFunc : Option (SigMethod → Except Err KeyMat)
  timeout : Int
  maxRefresh : Int
  filteredURL : String
  tokenLookup : String
  tokenHeadName : String
  identityKey : String
  identityHandler : ClaimSet → Option Val
  authorizator : Option Val → Bool
  authenticator : Option (Except Err Val)
  payloadFunc : Option (Val → ClaimSet)

/-- The default `IdentityHandler` installed by `MiddlewareInit`:
`ExtractClaims(c)[mw.IdentityKey]` on the published payload. -/
def defaultIdentityHandler (idKey : String) (claims : ClaimSet) : Option Val :=
  denil (getClaim claims idKey)

/-- Method `usingPublicKeyAlgo` of the source (on an algorithm string). -/
def usingPublicKeyAlgo (alg : String) : Bool :=
  alg = "RS256" || alg = "RS512" || alg = "RS384"

/-- Error result of `MiddlewareInit`.  The defaulting assignments of the
source do not affect the returned error except for the signing-algorithm
default; `readKeysRes` abstracts the result of `readKeys` (file reads and
PEM parsing, external IO) taken when an RSA algorithm is configured. -/
def middlewareInitErr (mw : MW) (readKeysRes : Option Err) : Option Err :=
  let alg := if mw.signingAlgorithm = "" then "HS256" else mw.signingAlgorithm
  if mw.keyFunc.isSome then none
  else if usingPublicKeyAlgo alg then readKeysRes
  else if mw.key = none then some .missingSecretKey
  else none

/-! ### Credential locator (`jwtFrom*` and the loop of `ParseToken`) -/

/-- The per-request lookup sources: each function maps a field name to the
value the request carries there, with `""` for absent (as the gin
accessors return). -/
structure Request where
  header : String → String
  query : String → String
  cookie : String → String
  param : String → String
  postForm : String → String

/-- Function `jwtFromHeader` of the source, applied to the header value. -/
def jwtFromHeader (mw : MW) (authHeader : String) : Except Err String :=
  if authHeader = "" then .error .emptyAuthHeader
  else
    match splitFirstSpace authHeader.data with
    | none => .error .invalidAuthHeader
    | some parts =>
      if String.mk parts.1 = mw.tokenHeadName then .ok (String.mk parts.2)
      else .error .invalidAuthHeader

/-- Function `jwtFromQuery` of the source, applied to the query value. -/
def jwtFromQuery (token : String) : Except Err String :=
  if token = "" then .error .emptyQueryToken else .ok token

/-- Function `jwtFromCookie` of the source, applied to the cookie value. -/
def jwtFromCookie (cookie : String) : Except Err String :=
  if cookie = "" then .error .emptyCookieToken else .ok cookie

/-- Function `jwtFromParam` of the source, applied to the path parameter. -/
def jwtFromParam (token : String) : Except Err String :=
  if token = "" then .error .emptyParamToken else .ok token

/-- Function `jwtFromPostForm` of the source, applied to the form value. -/
def jwtFromPostForm (token : String) : Except Err String :=
  if token = "" then .error .emptyPostFormToken else .ok token

/-- One arm of the `switch k` of `ParseToken`; `none` when the source kind
is not recognized (the Go switch falls through leaving token and err
unchanged). -/
def lookupSource (mw : MW) (req : Request) (k v : String) : Option (Except Err String) :=
  if k = "header" then some (jwtFromHeader mw (req.header v))
  else if k = "query" then some (jwtFromQuery (req.query v))
  else if k = "cookie" then some (jwtFromCookie (req.cookie v))
  else if k = "param" then some (jwtFromParam (req.param v))
  else if k = "postform" then some (jwtFromPostForm (req.postForm v))
  else none

/-- The locator loop of `ParseToken` (lines 800 to 821): the `token` and
`err` variables thread through the iterations, a non-empty token breaks
the loop, and `token, err = ...` overwrites both on every attempted
source.  The outer `Option` is `none` when a descriptor has no colon, in
which case the Go code panics indexing `parts[1]`. -/
def parseTokenLoop (mw : MW) (req : Request) :
    List String → String → Option Err → Option (String × Option Err)
  | [], token, err => some (token, err)
  | m :: rest, token, err =>
    if 0 < token.length then some (token, err)
    else
      match goSplit (goTrimSpace m) ':' with
      | [] => none
      | [_] => none
      | p0 :: p1 :: _ =>
        match lookupSource mw req (goTrimSpace p0) (goTrimSpace p1) with
        | none => parseTokenLoop mw req rest token err
        | some (.ok t) => parseTokenLoop mw req rest t none
        | some (.error e) => parseTokenLoop mw req rest "" (some e)

/-- The locate phase of `ParseToken`: run the loop over the comma-split
`TokenLookup` descriptors. -/
def parseTokenLocate (mw : MW) (req : Request) : Option (String × Option Err) :=
  parseTokenLoop mw req (goSplit mw.tokenLookup ',') "" none

/-- The keyfunc closure `ParseToken` passes to `jwt.Parse` when no
external `KeyFunc` is configured (lines 831 to 843), applied to the
token's declared method. -/
def parseTokenKeyfunc (mw : MW) (tMethod : SigMethod) : Except Err KeyMat :=
  if getSigningMethod mw.signingAlgorithm ≠ some tMethod then
    .error .invalidSigningAlgorithm
  else if usingPublicKeyAlgo mw.signingAlgorithm then .ok .rsaPub
  else .ok (.secret mw.key)

/-- Key resolution of `ParseToken`: an external `KeyFunc` bypasses the
algorithm check and the key settings entirely (lines 827 to 829),
otherwise the `parseTokenKeyfunc` closure runs. -/
def resolveKeyfunc (mw : MW) (tMethod : SigMethod) : Except Err KeyMat :=
  match mw.keyFunc with
  | some f => f tMethod
  | none => parseTokenKeyfunc mw tMethod

/-! ### Policy gate and middleware orchestrator (`middlewareImpl`) -/

/-- The exemption flag computed by `middlewareImpl` (lines 433 to 445):
split `FilteredURL` on commas, trim each entry, and test whether the
request path has any entry as a prefix. -/
def pathExempt (filteredURL path : String) : Bool :=
  (goSplit filteredURL ',').any (fun u => goStartsWith path (goTrimSpace u))

/-- Terminal result of one middleware evaluation: an aborted request with
a status code and error, a Go runtime panic, or admission carrying the
published JWT payload and the identity value published under the identity
key (`none` when no identity was set). -/
inductive Outcome
  | reject (status : Nat) (e : Err)
  | panicked
  | pass (payload : ClaimSet) (identity : Option Val)
deriving DecidableEq

/-- Lines 469 to 517 of `middlewareImpl`: the exp-claim checks, the
payload and identity publication, and the Authorizator call, entered
after the error branch with the parsed claims (nil, i.e. `[]`, when a
tolerated locator error fell through). -/
def middlewareChecks (mw : MW) (now : Int) (flag : Bool) (claims : ClaimSet) : Outcome :=
  let expV := goGet claims "exp"
  if expV = none && !flag then .reject 400 .missingExpField
  else if !(isFloat64 expV) && !flag then .reject 400 .wrongFormatOfExp
  else
    match expV with
    | some (.num x) =>
      if x < now then .reject 401 .expiredToken
      else
        let identity := mw.identityHandler claims
        if !(mw.authorizator identity) && !flag then .reject 403 .forbidden
        else .pass claims identity
    | some _ => .panicked
    | none =>
      let identity := mw.identityHandler claims
      if !(mw.authorizator identity) && !flag then .reject 403 .forbidden
      else .pass claims identity

/-- Function `middlewareImpl` of the source, given the result of
`GetClaimsFromJWT` (the claims are nil exactly when it errored) and the
current time.  The error branch (lines 446 to 467) tolerates only the
error whose message is the empty-postform-token text, and only on an
exempt path. -/
def middlewareImpl (mw : MW) (path : String) (now : Int)
    (parseRes : Except Err ClaimSet) : Outcome :=
  let flag := pathExempt mw.filteredURL path
  match parseRes with
  | .error e =>
    if errString e ≠ "form post token is empty" then .reject 401 e
    else if !flag then .reject 401 e
    else middlewareChecks mw now flag []
  | .ok claims => middlewareChecks mw now flag claims

/-! ### Session issuer (`LoginHandler`, `CheckIfTokenExpire`, `RefreshToken`) -/

/-- Result of `CheckIfTokenExpire`: the claims to refresh, an error, or a
Go runtime panic from an unchecked type assertion or nil dereference. -/
inductive ChkRes
  | ok (claims : ClaimSet)
  | err (e : Err)
  | panicked
deriving DecidableEq

/-- Lines 704 to 712 of `CheckIfTokenExpire`: the unchecked assertions
`token.Claims.(jwt.MapClaims)` (panics on a nil token) and
`claims["orig_iat"].(float64)` (panics when the claim is absent, null, or
not a number), then the refresh-window test. -/
def checkOrigIat (mw : MW) (now : Int) (t : Option ClaimSet) : ChkRes :=
  match t with
  | none => .panicked
  | some claims =>
    match getClaim claims "orig_iat" with
    | some (.num origIat) =>
      if origIat < now - mw.maxRefresh then .err .expiredToken else .ok claims
    | _ => .panicked

/-- The `(token, err)` pair `ParseToken` returns to the refresh path: the
claims of the token object when one exists, and the parse error if any
(the jwt library returns a token object together with an expired error). -/
abbrev JwtParseOut := Option ClaimSet × Option Err

/-- Function `CheckIfTokenExpire` of the source: a parse error is
tolerated only when it is a `*jwt.ValidationError` whose `Errors` bits
equal `ValidationErrorExpired` exactly; then the orig_iat window test
runs. -/
def CheckIfTokenExpire (mw : MW) (now : Int) (pr : JwtParseOut) : ChkRes :=
  match pr.2 with
  | none => checkOrigIat mw now pr.1
  | some e =>
    match e with
    | .validation bits _ =>
      if bits ≠ jwtValidationErrorExpired then .err e
      else checkOrigIat mw now pr.1
    | _ => .err e

/-- Result of `RefreshToken` and `LoginHandler` token creation: the claim
set of the newly signed token together with its expiry. -/
inductive RefRes
  | ok (newClaims : ClaimSet) (expire : Int)
  | err (e : Err)
  | panicked
deriving DecidableEq

/-- The copy loop `for key := range claims` of `RefreshToken` writing into
the fresh (empty) claim set of `jwt.New`. -/
def copyClaims (cs : ClaimSet) : ClaimSet :=
  cs.foldl (fun acc p => setClaim acc p.1 p.2) []

/-- Function `RefreshToken` of the source (lines 644 to 687): on a
successful expiry check, copy every claim into the new token's empty
claim set, overwrite `exp` with `now + Timeout` and `orig_iat` with
`now`, and sign (HMAC signing of a well-formed claim set cannot fail, so
`signedString` is modelled as succeeding). -/
def RefreshToken (mw : MW) (now : Int) (pr : JwtParseOut) : RefRes :=
  match CheckIfTokenExpire mw now pr with
  | .err e => .err e
  | .panicked => .panicked
  | .ok claims =>
    let newClaims := copyClaims claims
    let expire := now + mw.timeout
    let final := setClaim (setClaim newClaims "exp" (.num expire)) "orig_iat" (.num now)
    .ok final expire

/-- Result of `LoginHandler`: a rejection through `unauthorized` with a
status code, or the claim set and expiry of the signed token. -/
inductive LoginRes
  | reject (status : Nat) (e : Err)
  | ok (claims : ClaimSet) (expire : Int)
deriving DecidableEq

/-- Function `LoginHandler` of the source up to the signed token: the nil
check of `Authenticator` happens here, at request time (lines 543 to
547), rejecting with the internal-server-error status 500; then the
payload builder merges into the fresh claim set and `exp`/`orig_iat` are
stamped. -/
def LoginHandler (mw : MW) (now : Int) : LoginRes :=
  match mw.authenticator with
  | none => .reject 500 .missingAuthenticatorFunc
  | some (.error e) => .reject 401 e
  | some (.ok data) =>
    let claims0 : ClaimSet :=
      match mw.payloadFunc with
      | none => []
      | some pf => (pf data).foldl (fun acc p => setClaim acc p.1 p.2) []
    let expire := now + mw.timeout
    let final := setClaim (setClaim claims0 "exp" (.num expire)) "orig_iat" (.num now)
    .ok final expire

/-! ### Helper lemmas on claim sets -/

theorem getClaim_setClaim_same (cs : ClaimSet) (k : String) (v : Val) :
    getClaim (setClaim cs k v) k = some v := by
  induction cs with
  | nil => simp [setClaim, getClaim]
  | cons p rest ih =>
    by_cases h : p.1 = k
    · simp [setClaim, getClaim, h]
    · simp [setClaim, getClaim, h, ih]

theorem getClaim_setClaim_other (cs : ClaimSet) (k k' : String) (v : Val)
    (hne : k' ≠ k) : getClaim (setClaim cs k v) k' = getClaim cs k' := by
  have hkk : k ≠ k' := Ne.symm hne
  induction cs with
  | nil => simp [setClaim, getClaim, hkk]
  | cons p rest ih =>
    by_cases h : p.1 = k
    · have hp : ¬ p.1 = k' := by rw [h]; exact hkk
      simp [setClaim, getClaim, h, hp, hkk]
    · by_cases h2 : p.1 = k'
      · simp [setClaim, getClaim, h, h2, hne]
      · simp [setClaim, getClaim, h, h2, ih]

theorem setClaim_notMem (cs : ClaimSet) (k : String) (v : Val)
    (h : k ∉ cs.map Prod.fst) : setClaim cs k v = cs ++ [(k, v)] := by
  induction cs with
  | nil => simp [setClaim]
  | cons p rest ih =>
    simp only [List.map_cons, List.mem_cons] at h
    push_neg at h
    have hp : p.1 ≠ k := fun h2 => h.1 h2.symm
    simp [setClaim, hp, ih h.2]

theorem copyClaims_loop_eq (cs : ClaimSet) :
    ∀ acc : ClaimSet, ((acc ++ cs).map Prod.fst).Nodup →
      cs.foldl (fun a p => setClaim a p.1 p.2) acc = acc ++ cs := by
  induction cs with
  | nil => intro acc _; simp
  | cons p rest ih =>
    intro acc hnd
    have hmem : p.1 ∉ acc.map Prod.fst := by
      intro hm
      have h1 : ((acc ++ p :: rest).map Prod.fst) =
          acc.map Prod.fst ++ p.1 :: rest.map Prod.fst := by simp
      rw [h1] at hnd
      exact (List.disjoint_of_nodup_append hnd) hm (by simp)
    have hstep : setClaim acc p.1 p.2 = acc ++ [(p.1, p.2)] :=
      setClaim_notMem acc p.1 p.2 hmem
    have hacc : acc ++ p :: rest = (acc ++ [(p.1, p.2)]) ++ rest := by simp
    have hnd2 : (((acc ++ [(p.1, p.2)]) ++ rest).map Prod.fst).Nodup := by
      rw [← hacc]; exact hnd
    calc (p :: rest).foldl (fun a q => setClaim a q.1 q.2) acc
        = rest.foldl (fun a q => setClaim a q.1 q.2) (acc ++ [(p.1, p.2)]) := by
          simp [List.foldl_cons, hstep]
      _ = (acc ++ [(p.1, p.2)]) ++ rest := ih (acc ++ [(p.1, p.2)]) hnd2
      _ = acc ++ p :: rest := by simp

theorem copyClaims_eq (cs : ClaimSet) (hnd : (cs.map Prod.fst).Nodup) :
    copyClaims cs = cs := by
  have h := copyClaims_loop_eq cs [] (by simpa using hnd)
  simpa [copyClaims] using h

/-! ### Helper lemmas on the first-space split -/

theorem splitFirstSpace_append (a b : List Char) (ha : ' ' ∉ a) :
    splitFirstSpace (a ++ ' ' :: b) = some (a, b) := by
  induction a with
  | nil => simp [splitFirstSpace]
  | cons c cs ih =>
    have hc : c ≠ ' ' := fun h => ha (by simp [h])
    have hcs : ' ' ∉ cs := fun h => ha (by simp [h])
    simp [splitFirstSpace, hc, ih hcs]

theorem splitFirstSpace_sound (l : List Char) :
    ∀ p q, splitFirstSpace l = some (p, q) → l = p ++ ' ' :: q ∧ ' ' ∉ p := by
  induction l with
  | nil => intro p q h; simp [splitFirstSpace] at h
  | cons c cs ih =>
    intro p q h
    by_cases hc : c = ' '
    · simp [splitFirstSpace, hc] at h
      rcases h with ⟨h1, h2⟩
      subst h1; subst h2
      simp [hc]
    · simp only [splitFirstSpace, if_neg hc] at h
      cases hrec : splitFirstSpace cs with
      | none => rw [hrec] at h; simp at h
      | some pr =>
        rw [hrec] at h
        simp only [Option.some.injEq] at h
        injection h with h1 h2
        subst h1; subst h2
        have hr := ih pr.1 pr.2 (by rw [hrec])
        refine ⟨?_, ?_⟩
        · simp [hr.1]
        · intro hm
          rcases List.mem_cons.mp hm with h3 | h3
          · exact hc h3.symm
          · exact hr.2 h3

/-! ### Concrete configurations and requests used by witnesses -/

/-- A concrete symmetric-key configuration carrying the initializer's
default values (`HS256`, `header:Authorization`, `Bearer`, `identity`,
`/douyin/test`, a one-hour timeout) and a one-hour refresh window. -/
def mwSample : MW where
  signingAlgorithm := "HS256"
  key := some "secret key"
  keyFunc := none
  timeout := 3600
  maxRefresh := 3600
  filteredURL := "/douyin/test"
  tokenLookup := "header:Authorization"
  tokenHeadName := "Bearer"
  identityKey := "identity"
  identityHandler := defaultIdentityHandler "identity"
  authorizator := fun _ => true
  authenticator := none
  payloadFunc := none

/-- The sample configuration with an external key-resolution callback. -/
def mwKeyFuncSample : MW :=
  { mwSample with keyFunc := some fun _ => .ok (.custom 7) }

/-- The sample configuration with no symmetric key configured. -/
def mwNoKey : MW :=
  { mwSample with key := none }

/-- A request presenting no credential at any source. -/
def reqEmpty : Request where
  header := fun _ => ""
  query := fun _ => ""
  cookie := fun _ => ""
  param := fun _ => ""
  postForm := fun _ => ""

/-! ### C2: the middleware consults the policy gate only for the
empty-postform-token locator error -/

theorem errString_postform_iff (e : Err) :
    errString e = "form post token is empty" ↔ e = Err.emptyPostFormToken := by
  cases e
  case validation bits m =>
    constructor
    · intro h
      exfalso
      revert h
      cases m <;> simp only [errString] <;> decide
    · intro h
      exact Err.noConfusion h
  all_goals decide

/-- C2: on a locator or verification failure, the middleware consults the
exemption flag if and only if the error is exactly the
empty-postform-token error: any error whose message differs from the
empty-postform text (and only `emptyPostFormToken` has that message) is
rejected with the unauthorized status 401 no matter the path, while the
empty-postform-token error is rejected on a non-exempt path and falls
through to the claim checks on an exempt path. -/
theorem middleware_gate_only_postform (mw : MW) (path : String) (now : Int) (e : Err) :
    (errString e ≠ "form post token is empty" →
      middlewareImpl mw path now (.error e) = .reject 401 e)
    ∧ (errString e = "form post token is empty" ↔ e = Err.emptyPostFormToken)
    ∧ (pathExempt mw.filteredURL path = false →
      middlewareImpl mw path now (.error .emptyPostFormToken)
        = .reject 401 .emptyPostFormToken)
    ∧ (pathExempt mw.filteredURL path = true →
      middlewareImpl mw path now (.error .emptyPostFormToken)
        = middlewareChecks mw now true []) := by
  refine ⟨?_, errString_postform_iff e, ?_, ?_⟩
  · intro h
    simp [middlewareImpl, h]
  · intro h
    simp [middlewareImpl, errString, h]
  · intro h
    simp [middlewareImpl, errString, h]

/-- Witness for the C2 theorem at concrete inputs. -/
theorem middleware_gate_only_postform_witness :
    middlewareImpl mwSample "/douyin/user/" 100 (.error .emptyAuthHeader)
      = .reject 401 .emptyAuthHeader
    ∧ middlewareImpl mwSample "/douyin/user/" 100 (.error .emptyPostFormToken)
      = .reject 401 .emptyPostFormToken :=
  ⟨(middleware_gate_only_postform mwSample "/douyin/user/" 100 .emptyAuthHeader).1
      (by decide),
   (middleware_gate_only_postform mwSample "/douyin/user/" 100 .emptyPostFormToken).2.2.1
      (by decide)⟩

/-! ### C5: refresh tolerates exactly the expired-only validation error -/

/-- C5: `CheckIfTokenExpire` tolerates exactly one parse failure of the
presented token, a `*jwt.ValidationError` whose bits equal
`ValidationErrorExpired` alone (for which it behaves as if the parse had
succeeded); any other parse error aborts the refresh with that error. -/
theorem checkIfTokenExpire_tolerates_only_expired (mw : MW) (now : Int)
    (t : Option ClaimSet) (e : Err) :
    ((∀ m, e ≠ .validation jwtValidationErrorExpired m) →
      CheckIfTokenExpire mw now (t, some e) = .err e)
    ∧ ((∃ m, e = .validation jwtValidationErrorExpired m) →
      CheckIfTokenExpire mw now (t, some e) = CheckIfTokenExpire mw now (t, none)) := by
  constructor
  · intro h
    cases e
    case validation bits m =>
      have hb : bits ≠ jwtValidationErrorExpired := by
        intro hbe
        exact h m (by rw [hbe])
      simp [CheckIfTokenExpire, hb]
    all_goals simp [CheckIfTokenExpire]
  · rintro ⟨m, rfl⟩
    simp [CheckIfTokenExpire]

/-- Witness for the C5 theorem at concrete inputs. -/
theorem checkIfTokenExpire_tolerates_only_expired_witness :
    CheckIfTokenExpire mwSample 100 (some [], some .invalidAuthHeader)
      = .err .invalidAuthHeader
    ∧ CheckIfTokenExpire mwSample 100
        (some [("orig_iat", Val.num 100)], some (.validation 16 .expired))
      = CheckIfTokenExpire mwSample 100 (some [("orig_iat", Val.num 100)], none) :=
  ⟨(checkIfTokenExpire_tolerates_only_expired mwSample 100 (some []) .invalidAuthHeader).1
      (fun _ h => Err.noConfusion h),
   (checkIfTokenExpire_tolerates_only_expired mwSample 100
      (some [("orig_iat", Val.num 100)]) (.validation 16 .expired)).2 ⟨.expired, rfl⟩⟩

/-! ### C10: the refresh path panics on a missing or non-numeric orig_iat -/

/-- C10: when the presented token parses (or fails only with the tolerated
expired-only error) but its claim set has no `orig_iat` claim holding a
float64, `CheckIfTokenExpire` hits the unchecked type assertion
`claims["orig_iat"].(float64)` and panics instead of returning an
error. -/
theorem checkIfTokenExpire_panics_on_bad_origIat (mw : MW) (now : Int)
    (cs : ClaimSet) (e2 : Option Err)
    (hver : e2 = none ∨ ∃ m, e2 = some (.validation jwtValidationErrorExpired m))
    (hbad : ∀ x : Int, getClaim cs "orig_iat" ≠ some (.num x)) :
    CheckIfTokenExpire mw now (some cs, e2) = .panicked := by
  have hco : checkOrigIat mw now (some cs) = .panicked := by
    cases hg : getClaim cs "orig_iat" with
    | none => simp [checkOrigIat, hg]
    | some v =>
      cases v with
      | num x => exact absurd hg (hbad x)
      | str s => simp [checkOrigIat, hg]
      | boolean b => simp [checkOrigIat, hg]
      | null => simp [checkOrigIat, hg]
  rcases hver with rfl | ⟨m, rfl⟩
  · simpa [CheckIfTokenExpire] using hco
  · simpa [CheckIfTokenExpire] using hco

/-- Witness for the C10 theorem at a concrete input. -/
theorem checkIfTokenExpire_panics_on_bad_origIat_witness :
    CheckIfTokenExpire mwSample 100 (some [("identity", Val.num 3)], none) = .panicked :=
  checkIfTokenExpire_panics_on_bad_origIat mwSample 100 [("identity", Val.num 3)] none
    (Or.inl rfl)
    (by
      intro x h
      rw [show getClaim [("identity", Val.num 3)] "orig_iat" = none by decide] at h
      exact Option.noConfusion h)

/-! ### C7: algorithm check of the verification keyfunc -/

/-- C7: with no external `KeyFunc`, a token whose declared method differs
from the configured algorithm makes key resolution fail with
`InvalidSigningAlgorithm`; with an external `KeyFunc` configured, that
callback replaces the algorithm check and key selection entirely. -/
theorem resolveKeyfunc_alg_check (mw : MW) (m : SigMethod) :
    (mw.keyFunc = none → getSigningMethod mw.signingAlgorithm ≠ some m →
      resolveKeyfunc mw m = .error .invalidSigningAlgorithm)
    ∧ (∀ f, mw.keyFunc = some f → resolveKeyfunc mw m = f m) := by
  constructor
  · intro hk halg
    simp [resolveKeyfunc, hk, parseTokenKeyfunc, halg]
  · intro f hf
    simp [resolveKeyfunc, hf]

/-- Witness for the C7 theorem: an RS256 token presented to the HS256
configuration is rejected, and a configured callback is used as-is. -/
theorem resolveKeyfunc_alg_check_witness :
    resolveKeyfunc mwSample .RS256 = .error .invalidSigningAlgorithm
    ∧ resolveKeyfunc mwKeyFuncSample .RS256 = .ok (.custom 7) :=
  ⟨(resolveKeyfunc_alg_check mwSample .RS256).1 rfl (by decide),
   (resolveKeyfunc_alg_check mwKeyFuncSample .RS256).2 (fun _ => .ok (.custom 7)) rfl⟩

/-! ### C4: the refresh window arithmetic -/

/-- C4: a refresh whose presented token verifies (tolerating only the
expired-only validation error) succeeds exactly when
`now - orig_iat <= MaxRefresh`, returning a token whose `exp` claim is
`now + Timeout` and whose `orig_iat` claim is `now`; when the window is
exceeded it fails with the expired-token error. -/
theorem refreshToken_window (mw : MW) (now : Int) (cs : ClaimSet)
    (e2 : Option Err) (oi : Int)
    (hver : e2 = none ∨ ∃ m, e2 = some (.validation jwtValidationErrorExpired m))
    (hoi : getClaim cs "orig_iat" = some (.num oi)) :
    (now - oi ≤ mw.maxRefresh →
      ∃ nc, RefreshToken mw now (some cs, e2) = .ok nc (now + mw.timeout)
        ∧ getClaim nc "exp" = some (.num (now + mw.timeout))
        ∧ getClaim nc "orig_iat" = some (.num now))
    ∧ (mw.maxRefresh < now - oi →
      RefreshToken mw now (some cs, e2) = .err .expiredToken) := by
  have hchk : CheckIfTokenExpire mw now (some cs, e2) = checkOrigIat mw now (some cs) := by
    rcases hver with rfl | ⟨m, rfl⟩ <;> simp [CheckIfTokenExpire]
  constructor
  · intro hle
    have hlt : ¬ (oi < now - mw.maxRefresh) := by omega
    have hco : checkOrigIat mw now (some cs) = .ok cs := by
      simp [checkOrigIat, hoi, hlt]
    refine ⟨setClaim (setClaim (copyClaims cs) "exp" (.num (now + mw.timeout)))
        "orig_iat" (.num now), ?_, ?_, ?_⟩
    · simp [RefreshToken, hchk, hco]
    · rw [getClaim_setClaim_other _ _ _ _ (by decide)]
      exact getClaim_setClaim_same _ _ _
    · exact getClaim_setClaim_same _ _ _
  · intro hgt
    have hlt : oi < now - mw.maxRefresh := by omega
    have hco : checkOrigIat mw now (some cs) = .err .expiredToken := by
      simp [checkOrigIat, hoi, hlt]
    simp [RefreshToken, hchk, hco]

/-- Witness for the C4 theorem at concrete inputs: a refresh inside the
window succeeds with the fresh stamps, one outside fails expired. -/
theorem refreshToken_window_witness :
    (∃ nc, RefreshToken mwSample 100
        (some [("identity", Val.str "u7"), ("orig_iat", Val.num 50)], none)
        = .ok nc (100 + mwSample.timeout)
      ∧ getClaim nc "exp" = some (.num (100 + mwSample.timeout))
      ∧ getClaim nc "orig_iat" = some (.num 100))
    ∧ RefreshToken mwSample 5000 (some [("orig_iat", Val.num 50)], none)
      = .err .expiredToken :=
  ⟨(refreshToken_window mwSample 100 [("identity", Val.str "u7"), ("orig_iat", Val.num 50)]
      none 50 (Or.inl rfl) (by decide)).1 (by decide),
   (refreshToken_window mwSample 5000 [("orig_iat", Val.num 50)]
      none 50 (Or.inl rfl) (by decide)).2 (by decide)⟩

/-! ### C6: the refresh frame condition -/

theorem checkOrigIat_ok (mw : MW) (now : Int) (t : Option ClaimSet) (claims : ClaimSet)
    (h : checkOrigIat mw now t = .ok claims) : t = some claims := by
  cases t with
  | none => simp [checkOrigIat] at h
  | some cs2 =>
    cases hg : getClaim cs2 "orig_iat" with
    | none => simp [checkOrigIat, hg] at h
    | some v =>
      cases v with
      | num x =>
        simp only [checkOrigIat, hg] at h
        by_cases hlt : x < now - mw.maxRefresh
        · rw [if_pos hlt] at h
          exact ChkRes.noConfusion h
        · rw [if_neg hlt] at h
          injection h with h1
          rw [h1]
      | str s => simp [checkOrigIat, hg] at h
      | boolean b => simp [checkOrigIat, hg] at h
      | null => simp [checkOrigIat, hg] at h

theorem checkIfTokenExpire_ok_claims (mw : MW) (now : Int) (t : Option ClaimSet)
    (e2 : Option Err) (claims : ClaimSet)
    (h : CheckIfTokenExpire mw now (t, e2) = .ok claims) : t = some claims := by
  cases e2 with
  | none => exact checkOrigIat_ok mw now t claims (by simpa [CheckIfTokenExpire] using h)
  | some e =>
    cases e
    case validation bits m =>
      by_cases hb : bits = jwtValidationErrorExpired
      · refine checkOrigIat_ok mw now t claims ?_
        simpa [CheckIfTokenExpire, hb] using h
      · simp [CheckIfTokenExpire, hb] at h
    all_goals simp [CheckIfTokenExpire] at h

/-- C6: a successful refresh returns a new claim set that agrees with the
presented one on every claim other than `exp` and `orig_iat`, overwrites
exactly those two with the fresh stamps, and neither adds nor removes any
other claim (the presented claim set is an immutable input: the new set
is built by copying). -/
theorem refreshToken_frame (mw : MW) (now : Int) (cs : ClaimSet) (e2 : Option Err)
    (nc : ClaimSet) (expire : Int)
    (hnd : (cs.map Prod.fst).Nodup)
    (hok : RefreshToken mw now (some cs, e2) = .ok nc expire) :
    (∀ k, k ≠ "exp" → k ≠ "orig_iat" → getClaim nc k = getClaim cs k)
    ∧ getClaim nc "exp" = some (.num (now + mw.timeout))
    ∧ getClaim nc "orig_iat" = some (.num now)
    ∧ (∀ k, (getClaim nc k).isSome
        ↔ ((getClaim cs k).isSome ∨ k = "exp" ∨ k = "orig_iat")) := by
  have hnc : nc = setClaim (setClaim cs "exp" (.num (now + mw.timeout)))
      "orig_iat" (.num now) := by
    cases hres : CheckIfTokenExpire mw now (some cs, e2) with
    | ok claims2 =>
      have hcl : some cs = some claims2 :=
        checkIfTokenExpire_ok_claims mw now (some cs) e2 claims2 hres
      injection hcl with hcl2
      unfold RefreshToken at hok
      rw [hres] at hok
      injection hok with h1 h2
      rw [← h1, ← hcl2, copyClaims_eq cs hnd]
    | err e =>
      unfold RefreshToken at hok
      rw [hres] at hok
      exact RefRes.noConfusion hok
    | panicked =>
      unfold RefreshToken at hok
      rw [hres] at hok
      exact RefRes.noConfusion hok
  subst hnc
  refine ⟨?_, ?_, ?_, ?_⟩
  · intro k hk1 hk2
    rw [getClaim_setClaim_other _ _ _ _ hk2, getClaim_setClaim_other _ _ _ _ hk1]
  · rw [getClaim_setClaim_other _ _ _ _ (by decide)]
    exact getClaim_setClaim_same _ _ _
  · exact getClaim_setClaim_same _ _ _
  · intro k
    by_cases hk2 : k = "orig_iat"
    · subst hk2
      simp [getClaim_setClaim_same]
    · by_cases hk1 : k = "exp"
      · subst hk1
        rw [getClaim_setClaim_other _ _ _ _ (by decide)]
        simp [getClaim_setClaim_same]
      · rw [getClaim_setClaim_other _ _ _ _ hk2, getClaim_setClaim_other _ _ _ _ hk1]
        simp [hk1, hk2]

/-- Witness for the C6 theorem at a concrete refresh. -/
theorem refreshToken_frame_witness :
    getClaim [("identity", Val.str "u7"), ("orig_iat", Val.num 100), ("exp", Val.num 3700)]
        "identity"
      = getClaim [("identity", Val.str "u7"), ("orig_iat", Val.num 50)] "identity"
    ∧ getClaim [("identity", Val.str "u7"), ("orig_iat", Val.num 100), ("exp", Val.num 3700)]
        "exp" = some (.num (100 + mwSample.timeout))
    ∧ getClaim [("identity", Val.str "u7"), ("orig_iat", Val.num 100), ("exp", Val.num 3700)]
        "orig_iat" = some (.num 100) :=
  have th := refreshToken_frame mwSample 100 [("identity", Val.str "u7"), ("orig_iat", Val.num 50)]
    none [("identity", Val.str "u7"), ("orig_iat", Val.num 100), ("exp", Val.num 3700)]
    3700 (by decide) (by decide)
  ⟨th.1 "identity" (by decide) (by decide), th.2.1, th.2.2.1⟩

/-! ### C1: exempt path with no credential -/

/-- C1 counterexample: with the default lookup configuration
(`header:Authorization`), a request on an exempt path that supplies no
credential at any configured source makes the locator end with the
empty-auth-header error, and the middleware rejects with 401 instead of
admitting: only the empty-postform-token error is tolerated. -/
theorem exempt_noCredential_rejected :
    pathExempt mwSample.filteredURL "/douyin/test/ping" = true
    ∧ parseTokenLocate mwSample reqEmpty = some ("", some .emptyAuthHeader)
    ∧ middlewareImpl mwSample "/douyin/test/ping" 100 (.error .emptyAuthHeader)
      = .reject 401 .emptyAuthHeader := by
  refine ⟨by decide, by decide, by decide⟩

/-- C1 amended: on an exempt path the middleware admits with no identity
published only when the locator failed with the empty-postform-token
error (the last attempted source a postform field that was empty); every
locator failure whose message differs from the empty-postform text —
including the no-credential errors of the header, query, cookie and param
sources, and the malformed-credential errors — is rejected with 401 even
on the exempt path. -/
theorem exempt_emptyPostForm_admits (mw : MW) (path : String) (now : Int)
    (hex : pathExempt mw.filteredURL path = true)
    (hid : mw.identityHandler = defaultIdentityHandler mw.identityKey) :
    middlewareImpl mw path now (.error .emptyPostFormToken) = .pass [] none
    ∧ ∀ e : Err, errString e ≠ "form post token is empty" →
        middlewareImpl mw path now (.error e) = .reject 401 e := by
  constructor
  · simp [middlewareImpl, errString, hex, middlewareChecks, goGet, getClaim, isFloat64,
      hid, defaultIdentityHandler, denil]
  · intro e he
    simp [middlewareImpl, he]

/-- Witness for the amended C1 theorem at concrete inputs. -/
theorem exempt_emptyPostForm_admits_witness :
    middlewareImpl mwSample "/douyin/test/x" 100 (.error .emptyPostFormToken)
      = .pass [] none
    ∧ middlewareImpl mwSample "/douyin/test/x" 100 (.error .emptyCookieToken)
      = .reject 401 .emptyCookieToken :=
  ⟨(exempt_emptyPostForm_admits mwSample "/douyin/test/x" 100 (by decide) rfl).1,
   (exempt_emptyPostForm_admits mwSample "/douyin/test/x" 100 (by decide) rfl).2
      .emptyCookieToken (by decide)⟩

/-! ### C3: validation failures on an exempt path -/

/-- C3 counterexample: on an exempt path, a credential that verifies but
whose claim set has no `exp` claim is admitted (with its identity even
published), not rejected: the missing-exp, wrong-format-exp and
Authorizator checks are all skipped on exempt paths. -/
theorem exempt_missingExp_admitted :
    pathExempt mwSample.filteredURL "/douyin/test/ping" = true
    ∧ goGet [("identity", Val.str "u7")] "exp" = none
    ∧ middlewareImpl mwSample "/douyin/test/ping" 100 (.ok [("identity", Val.str "u7")])
      = .pass [("identity", Val.str "u7")] (some (.str "u7")) := by
  refine ⟨by decide, by decide, by decide⟩

/-- C3 amended: on an exempt path, a credential that verifies is handled
as follows: a missing `exp` claim is tolerated and the request admitted
(as is a rejection by the Authorizator: with the flag set the forbidden
branch is unreachable, so admission below holds for every authorizator);
a present non-float64 `exp` makes the middleware panic on the unchecked
assertion; only an expired float64 `exp` is still rejected (with 401),
the one validation failure that stays fatal on exempt paths. -/
theorem exempt_claim_validation (mw : MW) (path : String) (now : Int) (claims : ClaimSet)
    (hex : pathExempt mw.filteredURL path = true) :
    (goGet claims "exp" = none →
      middlewareImpl mw path now (.ok claims) = .pass claims (mw.identityHandler claims))
    ∧ (∀ v, goGet claims "exp" = some v → (∀ x : Int, v ≠ .num x) →
      middlewareImpl mw path now (.ok claims) = .panicked)
    ∧ (∀ x : Int, goGet claims "exp" = some (.num x) → x < now →
      middlewareImpl mw path now (.ok claims) = .reject 401 .expiredToken)
    ∧ (∀ x : Int, goGet claims "exp" = some (.num x) → now ≤ x →
      middlewareImpl mw path now (.ok claims) = .pass claims (mw.identityHandler claims)) := by
  refine ⟨?_, ?_, ?_, ?_⟩
  · intro hnone
    simp [middlewareImpl, middlewareChecks, hex, hnone, isFloat64]
  · intro v hv hnot
    cases v with
    | num x => exact absurd rfl (hnot x)
    | str s => simp [middlewareImpl, middlewareChecks, hex, hv, isFloat64]
    | boolean b => simp [middlewareImpl, middlewareChecks, hex, hv, isFloat64]
    | null =>
      exfalso
      unfold goGet at hv
      cases hg : getClaim claims "exp" with
      | none => rw [hg] at hv; exact Option.noConfusion hv
      | some w =>
        cases w <;> rw [hg] at hv <;> simp at hv
  · intro x hv hlt
    simp [middlewareImpl, middlewareChecks, hex, hv, isFloat64, hlt]
  · intro x hv hge
    have hlt : ¬ (x < now) := by omega
    simp [middlewareImpl, middlewareChecks, hex, hv, isFloat64, hlt]

/-- Witness for the amended C3 theorem at concrete inputs. -/
theorem exempt_claim_validation_witness :
    middlewareImpl mwSample "/douyin/test/a" 100 (.ok [("exp", Val.str "zzz")]) = .panicked
    ∧ middlewareImpl mwSample "/douyin/test/a" 100 (.ok [("exp", Val.num 50)])
      = .reject 401 .expiredToken :=
  ⟨(exempt_claim_validation mwSample "/douyin/test/a" 100 [("exp", Val.str "zzz")]
      (by decide)).2.1 (.str "zzz") (by decide) (fun _ h => Val.noConfusion h),
   (exempt_claim_validation mwSample "/douyin/test/a" 100 [("exp", Val.num 50)]
      (by decide)).2.2.1 50 (by decide) (by decide)⟩

/-! ### C9: configuration-time checks -/

/-- C9 counterexample: initialization succeeds for a symmetric-key
configuration whose `Authenticator` callback is missing; the missing
authenticator is only detected at request time, when `LoginHandler`
rejects with status 500, so the second configuration error of the claim
is not caught at initialization. -/
theorem init_ignores_missing_authenticator :
    mwSample.authenticator = none
    ∧ middlewareInitErr mwSample none = none
    ∧ LoginHandler mwSample 100 = .reject 500 .missingAuthenticatorFunc := by
  refine ⟨rfl, by decide, by decide⟩

/-- C9 amended: initialization rejects missing key material (a symmetric
configuration with no `KeyFunc` and a nil key fails with
`MissingSecretKey`), but it performs no check of the `Authenticator`
callback — its result is unchanged by the authenticator field — and a
missing authenticator is instead detected at request time by
`LoginHandler`, which rejects with the internal-server-error status 500
and `MissingAuthenticatorFunc`. -/
theorem init_checks_key_not_authenticator (mw : MW) (rk : Option Err) (now : Int) :
    (mw.keyFunc = none →
      usingPublicKeyAlgo (if mw.signingAlgorithm = "" then "HS256"
        else mw.signingAlgorithm) = false →
      mw.key = none → middlewareInitErr mw rk = some .missingSecretKey)
    ∧ (mw.authenticator = none →
      LoginHandler mw now = .reject 500 .missingAuthenticatorFunc)
    ∧ (∀ a, middlewareInitErr { mw with authenticator := a } rk
        = middlewareInitErr mw rk) := by
  refine ⟨?_, ?_, ?_⟩
  · intro h1 h2 h3
    simp [middlewareInitErr, h1, h2, h3]
  · intro h
    simp [LoginHandler, h]
  · intro a
    rfl

/-- Witness for the amended C9 theorem at concrete configurations. -/
theorem init_checks_key_not_authenticator_witness :
    middlewareInitErr mwNoKey none = some .missingSecretKey
    ∧ LoginHandler mwSample 100 = .reject 500 .missingAuthenticatorFunc :=
  ⟨(init_checks_key_not_authenticator mwNoKey none 100).1 rfl (by decide) rfl,
   (init_checks_key_not_authenticator mwSample none 100).2.1 rfl⟩

/-! ### C8: header credential extraction -/

theorem append_space_string (a t : String) :
    a ++ " " ++ t = String.mk (a.data ++ ' ' :: t.data) := by
  apply String.ext
  simp [String.data_append]

/-- C8: extracting a credential from a header source returns
`EmptyAuthHeader` exactly when the header value is empty; when the value
is non-empty, it returns the token `t` exactly when the value is the
configured head name, a single space, and `t` (a case-sensitive exact
match of the head name against the part before the first space), and
`InvalidAuthHeader` otherwise. -/
theorem jwtFromHeader_spec (mw : MW) (h : String)
    (hns : ' ' ∉ mw.tokenHeadName.data) :
    (h = "" → jwtFromHeader mw h = .error .emptyAuthHeader)
    ∧ (∀ t, h = mw.tokenHeadName ++ " " ++ t → jwtFromHeader mw h = .ok t)
    ∧ (h ≠ "" → (∀ t, h ≠ mw.tokenHeadName ++ " " ++ t) →
      jwtFromHeader mw h = .error .invalidAuthHeader) := by
  refine ⟨?_, ?_, ?_⟩
  · intro he
    simp [jwtFromHeader, he]
  · intro t ht
    have hd : h.data = mw.tokenHeadName.data ++ ' ' :: t.data := by
      rw [ht, append_space_string]
    have hne : ¬ h = "" := by
      intro h0
      rw [h0] at hd
      simp at hd
    have hself : String.mk mw.tokenHeadName.data = mw.tokenHeadName := rfl
    rw [jwtFromHeader, if_neg hne, hd, splitFirstSpace_append _ _ hns]
    show (if String.mk mw.tokenHeadName.data = mw.tokenHeadName
        then (Except.ok (String.mk t.data) : Except Err String)
        else Except.error Err.invalidAuthHeader) = Except.ok t
    rw [if_pos hself]
  · intro hne hnot
    rw [jwtFromHeader, if_neg hne]
    cases hsp : splitFirstSpace h.data with
    | none => rfl
    | some pr =>
      have hsound := splitFirstSpace_sound h.data pr.1 pr.2 (by rw [hsp])
      show (if String.mk pr.1 = mw.tokenHeadName
          then (Except.ok (String.mk pr.2) : Except Err String)
          else Except.error Err.invalidAuthHeader) = Except.error Err.invalidAuthHeader
      by_cases hhead : String.mk pr.1 = mw.tokenHeadName
      · exfalso
        apply hnot (String.mk pr.2)
        rw [append_space_string]
        apply String.ext
        rw [← hhead]
        exact hsound.1
      · rw [if_neg hhead]

/-- Witness for the C8 theorem at concrete header values. -/
theorem jwtFromHeader_spec_witness :
    jwtFromHeader mwSample "" = .error .emptyAuthHeader
    ∧ jwtFromHeader mwSample "Bearer tok1" = .ok "tok1"
    ∧ jwtFromHeader mwSample "Basic tok1" = .error .invalidAuthHeader :=
  ⟨(jwtFromHeader_spec mwSample "" (by decide)).1 rfl,
   (jwtFromHeader_spec mwSample "Bearer tok1" (by decide)).2.1 "tok1" (by decide),
   (jwtFromHeader_spec mwSample "Basic tok1" (by decide)).2.2 (by decide)
      (by
        intro t ht
        have h2 := congrArg String.data ht
        rw [append_space_string] at h2
        have hd : ("Basic tok1" : String).data
            = mwSample.tokenHeadName.data ++ ' ' :: t.data := h2
        rw [show ("Basic tok1" : String).data
              = ['B', 'a', 's', 'i', 'c', ' ', 't', 'o', 'k', '1'] from rfl,
            show mwSample.tokenHeadName.data
              = ['B', 'e', 'a', 'r', 'e', 'r'] from rfl] at hd
        simp at hd)⟩

end Myjwt
